import Mathlib

/-!
Shallow embedding of the Machine-Learning example repository, covering:
* `src/Agent/agentframework/agentframework_workflow.py` — the `ReviewResult`
  pydantic model, the routing predicates `needs_editing` / `is_approved`,
  and the content-review workflow graph;
* `src/RAG/document_ingestion.py` — the chunk records written to the
  ingestion output file;
* `src/Chat/chat_history.py` — the interactive chat-history loop.
-/

namespace ML

/-- JSON values, as produced by parsing a textual payload.  Numbers are
modelled as integers (the fields the code reads are declared `int`);
object fields keep their textual order. -/
inductive Json where
  | null : Json
  | bool (b : Bool) : Json
  | int (n : Int) : Json
  | str (s : String) : Json
  | arr (xs : List Json) : Json
  | obj (fields : List (String × Json)) : Json

/-- A reviewer payload text: either text that is not valid JSON at all,
or text parsing to the JSON value carried by the constructor. -/
inductive Payload where
  | malformed (raw : String) : Payload
  | json (v : Json) : Payload

/-- The message handed to a routing condition: either some value that is
not an `AgentExecutorResponse`, or an executor response whose
`agent_run_response.text` is the carried payload. -/
inductive Message where
  | other : Message
  | executorResponse (payload : Payload) : Message

/-- `class ReviewResult(BaseModel)` from `agentframework_workflow.py`:
six fields, five plain `int` scores and a `str` feedback.  The pydantic
declaration carries no range constraint on any field. -/
structure ReviewResult where
  score : Int
  feedback : String
  clarity : Int
  completeness : Int
  accuracy : Int
  «structure» : Int
deriving DecidableEq, Repr

/-- First value bound to a key in a JSON object's field list. -/
def Json.getField (fields : List (String × Json)) (key : String) : Option Json :=
  match fields with
  | [] => none
  | (k, v) :: rest => if k = key then some v else Json.getField rest key

/-- Validate a JSON value as an `int` field (pydantic: a JSON integer). -/
def Json.asInt : Json → Option Int
  | .int n => some n
  | _ => none

/-- Validate a JSON value as a `str` field (pydantic: a JSON string). -/
def Json.asStr : Json → Option String
  | .str s => some s
  | _ => none

/-- `ReviewResult.model_validate` on an already-parsed JSON value: the
payload must be an object providing every declared field with the
declared type; extra fields are ignored, no bounds are checked. -/
def ReviewResult.model_validate (v : Json) : Option ReviewResult :=
  match v with
  | .obj fields =>
    match Json.getField fields "score" with
    | none => none
    | some vscore =>
      match Json.asInt vscore with
      | none => none
      | some score =>
        match Json.getField fields "feedback" with
        | none => none
        | some vfb =>
          match Json.asStr vfb with
          | none => none
          | some feedback =>
            match (Json.getField fields "clarity").bind Json.asInt with
            | none => none
            | some clarity =>
              match (Json.getField fields "completeness").bind Json.asInt with
              | none => none
              | some completeness =>
                match (Json.getField fields "accuracy").bind Json.asInt with
                | none => none
                | some accuracy =>
                  match (Json.getField fields "structure").bind Json.asInt with
                  | none => none
                  | some st =>
                    some ⟨score, feedback, clarity, completeness, accuracy, st⟩
  | _ => none

/-- `ReviewResult.model_validate_json`: parse the payload text, then
validate; text that is not valid JSON fails validation. -/
def ReviewResult.model_validate_json (p : Payload) : Option ReviewResult :=
  match p with
  | .malformed _ => none
  | .json v => ReviewResult.model_validate v

/-- `needs_editing` from `agentframework_workflow.py` (lines 52-60):
`False` for non-executor messages, `review.score < 80` on a valid
verdict, `False` when validation raises. -/
def needs_editing (message : Message) : Bool :=
  match message with
  | .other => false
  | .executorResponse p =>
    match ReviewResult.model_validate_json p with
    | some review => decide (review.score < 80)
    | none => false

/-- `is_approved` from `agentframework_workflow.py` (lines 64-72):
`True` for non-executor messages, `review.score >= 80` on a valid
verdict, `True` when validation raises. -/
def is_approved (message : Message) : Bool :=
  match message with
  | .other => true
  | .executorResponse p =>
    match ReviewResult.model_validate_json p with
    | some review => decide (review.score ≥ 80)
    | none => true

/-- Observable effects of one evaluation of a routing condition; the
list records every write or I/O operation performed. -/
structure World where
  effects : List String
deriving DecidableEq, Repr

/-- `needs_editing` embedded with explicit state passing, operation by
operation: the isinstance test, the attribute read, the validation call
and the comparison are all effect-free, so every branch returns the
incoming world unchanged. -/
def needs_editing_run (message : Message) (w : World) : Bool × World :=
  match message with
  | .other => (false, w)
  | .executorResponse p =>
    match ReviewResult.model_validate_json p with
    | some review => (decide (review.score < 80), w)
    | none => (false, w)

/-- `is_approved` embedded with explicit state passing; as with
`needs_editing_run`, no branch touches the world. -/
def is_approved_run (message : Message) (w : World) : Bool × World :=
  match message with
  | .other => (true, w)
  | .executorResponse p =>
    match ReviewResult.model_validate_json p with
    | some review => (decide (review.score ≥ 80), w)
    | none => (true, w)

/-- The five agent executors registered in the workflow builder. -/
inductive Node where
  | Writer : Node
  | Reviewer : Node
  | Editor : Node
  | Publisher : Node
  | Summarizer : Node
deriving DecidableEq, Repr

/-- One `add_edge` call of the builder: source, destination, and the
optional routing condition. -/
structure Edge where
  src : Node
  dst : Node
  condition : Option (Message → Bool)

/-- The edges declared in `agentframework_workflow.py` (lines 152-172),
in declaration order. -/
def workflowEdges : List Edge :=
  [⟨.Writer, .Reviewer, none⟩,
   ⟨.Reviewer, .Publisher, some is_approved⟩,
   ⟨.Reviewer, .Editor, some needs_editing⟩,
   ⟨.Editor, .Publisher, none⟩,
   ⟨.Publisher, .Summarizer, none⟩]

/-- `set_start_executor("Writer")`. -/
def startExecutor : Node := .Writer

/-- Modelled from the spec: §4.2's transition rule for the third-party
orchestration library (its code is not part of this repository) — an
edge out of the current node fires when its condition, if any, holds on
the current message.  Destinations of the fired edges, in declaration
order. -/
def enabledSuccessors (n : Node) (m : Message) : List Node :=
  (workflowEdges.filter fun e =>
    decide (e.src = n) && (match e.condition with
                           | none => true
                           | some c => c m)).map Edge.dst

/-- Modelled from the spec: §4.2's sequential execution — starting at a
node, repeatedly move to the fired successor until none fires; the fuel
bounds the walk by the number of nodes.  Returns the nodes executed in
order. -/
def runFrom : Nat → Node → Message → List Node
  | 0, n, _ => [n]
  | fuel + 1, n, m =>
    n :: (match enabledSuccessors n m with
          | [] => []
          | next :: _ => runFrom fuel next m)

/-- The nodes executed by one run of the content-review workflow whose
reviewer verdict message is `m`. -/
def runPath (m : Message) : List Node :=
  runFrom 5 startExecutor m

/-- One ingested chunk record of `document_ingestion.py`: the dict
`{"id": ..., "text": ...}` to which the embedding loop adds the
`"embedding"` key.  Embedding coordinates are modelled as the JSON
numbers written to the file. -/
structure Chunk where
  id : String
  text : String
  embedding : List Int
deriving DecidableEq, Repr

/-- The `file_chunks` list for one source file: the chunk texts the
splitter produced, each with id `f"{filename}-{(i + 1)}"` and the
embedding returned by the client for its text. -/
def file_chunks (filename : String) (texts : List String)
    (embed : String → List Int) : List Chunk :=
  texts.enum.map fun it =>
    { id := filename ++ "-" ++ toString (it.1 + 1)
      text := it.2
      embedding := embed it.2 }

/-- `all_chunks`: per-file chunk lists accumulated by `extend` over the
file list, starting from the empty list. -/
def all_chunks (files : List (String × List String))
    (embed : String → List Int) : List Chunk :=
  files.foldl (fun acc fc => acc ++ file_chunks fc.1 fc.2 embed) []

/-- The JSON object `json.dump` writes for one chunk dict. -/
def Chunk.toJson (c : Chunk) : Json :=
  .obj [("id", .str c.id), ("text", .str c.text),
        ("embedding", .arr (c.embedding.map Json.int))]

/-- The JSON value written to `rag_ingested_chunks.json`: a single
array holding every chunk object. -/
def dumpChunks (cs : List Chunk) : Json :=
  .arr (cs.map Chunk.toJson)

/-- Apply a fallible reader to every element, failing when any element
fails. -/
def mapOption (f : α → Option β) : List α → Option (List β)
  | [] => some []
  | x :: xs =>
    match f x with
    | none => none
    | some y =>
      match mapOption f xs with
      | none => none
      | some ys => some (y :: ys)

/-- Round-trip reader inverting `Chunk.toJson`. -/
def Chunk.ofJson : Json → Option Chunk
  | .obj [("id", .str i), ("text", .str t), ("embedding", .arr xs)] =>
    match mapOption Json.asInt xs with
    | some emb => some ⟨i, t, emb⟩
    | none => none
  | _ => none

/-- Round-trip reader for the whole ingestion file. -/
def parseChunks : Json → Option (List Chunk)
  | .arr xs => mapOption Chunk.ofJson xs
  | _ => none

/-- The key list of a JSON object (`[]` on non-objects). -/
def Json.keys : Json → List String
  | .obj fields => fields.map Prod.fst
  | _ => []

/-- One chat message dict `{"role": ..., "content": ...}` of
`chat_history.py`. -/
structure ChatMsg where
  role : String
  content : String
deriving DecidableEq, Repr

/-- The initial history: the single system message. -/
def initialMessages : List ChatMsg :=
  [{ role := "system", content := "I am a large language model." }]

/-- One streamed completion event, carrying the `delta.content` of each
choice (`none` models a `None` content). -/
structure StreamEvent where
  choices : List (Option String)

/-- The content one loop turn takes from an event: the first choice's
delta content when `event.choices` is nonempty and that content is
truthy (neither `None` nor the empty string). -/
def eventContent (e : StreamEvent) : Option String :=
  match e.choices with
  | [] => none
  | c :: _ =>
    match c with
    | none => none
    | some s => if s = "" then none else some s

/-- `bot_response`: the accumulator concatenating the streamed deltas
in arrival order. -/
def bot_response (events : List StreamEvent) : String :=
  events.foldl (fun acc e =>
    match eventContent e with
    | some content => acc ++ content
    | none => acc) ""

/-- One iteration of the interactive loop on history `messages`:
append the user question, stream the reply into `bot_response`, append
the assistant message. -/
def chatIteration (messages : List ChatMsg) (question : String)
    (events : List StreamEvent) : List ChatMsg :=
  (messages ++ [{ role := "user", content := question }])
    ++ [{ role := "assistant", content := bot_response events }]

/-- The loop over a finite interaction: fold the iteration over the
initial history. -/
def chatLoop (inputs : List (String × List StreamEvent)) : List ChatMsg :=
  inputs.foldl (fun msgs qe => chatIteration msgs qe.1 qe.2) initialMessages

end ML

/-- On every message the two routing conditions disagree:
`needs_editing` is the boolean negation of `is_approved`. -/
theorem ML.needs_editing_eq_not_approved (m : ML.Message) :
    ML.needs_editing m = !ML.is_approved m := by
  cases m with
  | other => rfl
  | executorResponse p =>
    simp only [ML.needs_editing, ML.is_approved]
    cases ML.ReviewResult.model_validate_json p with
    | none => rfl
    | some review =>
      by_cases h : review.score < 80
      · have h2 : ¬(80 ≤ review.score) := by omega
        simp [h, h2]
      · have h2 : 80 ≤ review.score := by omega
        simp [h, h2]

/-- C1: every payload validating as a verdict with score ≥ 80 makes
`is_approved` true and `needs_editing` false. -/
theorem C1_high_score_approved (p : ML.Payload) (r : ML.ReviewResult)
    (hparse : ML.ReviewResult.model_validate_json p = some r)
    (hscore : r.score ≥ 80) :
    ML.is_approved (ML.Message.executorResponse p) = true ∧
    ML.needs_editing (ML.Message.executorResponse p) = false := by
  constructor
  · simp [ML.is_approved, hparse, hscore]
  · simp [ML.needs_editing, hparse]
    omega

/-- Witness for C1 at the concrete verdict of spec §8 scenario 1. -/
theorem C1_high_score_approved_witness :
    ML.is_approved (ML.Message.executorResponse (ML.Payload.json (ML.Json.obj
      [("score", ML.Json.int 92), ("feedback", ML.Json.str "great"),
       ("clarity", ML.Json.int 90), ("completeness", ML.Json.int 90),
       ("accuracy", ML.Json.int 95), ("structure", ML.Json.int 90)]))) = true ∧
    ML.needs_editing (ML.Message.executorResponse (ML.Payload.json (ML.Json.obj
      [("score", ML.Json.int 92), ("feedback", ML.Json.str "great"),
       ("clarity", ML.Json.int 90), ("completeness", ML.Json.int 90),
       ("accuracy", ML.Json.int 95), ("structure", ML.Json.int 90)]))) = false :=
  C1_high_score_approved _ ⟨92, "great", 90, 90, 95, 90⟩ (by decide) (by decide)

/-- C2: every payload validating as a verdict with score < 80 makes
`needs_editing` true and `is_approved` false. -/
theorem C2_low_score_needs_editing (p : ML.Payload) (r : ML.ReviewResult)
    (hparse : ML.ReviewResult.model_validate_json p = some r)
    (hscore : r.score < 80) :
    ML.needs_editing (ML.Message.executorResponse p) = true ∧
    ML.is_approved (ML.Message.executorResponse p) = false := by
  constructor
  · simp [ML.needs_editing, hparse, hscore]
  · simp [ML.is_approved, hparse]
    omega

/-- Witness for C2 at the concrete verdict of spec §8 scenario 2. -/
theorem C2_low_score_needs_editing_witness :
    ML.needs_editing (ML.Message.executorResponse (ML.Payload.json (ML.Json.obj
      [("score", ML.Json.int 65), ("feedback", ML.Json.str "needs work"),
       ("clarity", ML.Json.int 60), ("completeness", ML.Json.int 70),
       ("accuracy", ML.Json.int 65), ("structure", ML.Json.int 60)]))) = true ∧
    ML.is_approved (ML.Message.executorResponse (ML.Payload.json (ML.Json.obj
      [("score", ML.Json.int 65), ("feedback", ML.Json.str "needs work"),
       ("clarity", ML.Json.int 60), ("completeness", ML.Json.int 70),
       ("accuracy", ML.Json.int 65), ("structure", ML.Json.int 60)]))) = false :=
  C2_low_score_needs_editing _ ⟨65, "needs work", 60, 70, 65, 60⟩ (by decide) (by decide)

/-- C3: whenever the payload does not validate as a verdict — a message
that is not an executor response, malformed JSON, or JSON missing
fields or of wrong types — both predicates return (the embedding is
total, the `try`/`except` maps the failure to the default), with
`is_approved` true and `needs_editing` false. -/
theorem C3_fail_open (m : ML.Message)
    (h : ∀ p, m = ML.Message.executorResponse p →
      ML.ReviewResult.model_validate_json p = none) :
    ML.is_approved m = true ∧ ML.needs_editing m = false := by
  cases m with
  | other => exact ⟨rfl, rfl⟩
  | executorResponse p =>
    have hp := h p rfl
    constructor
    · simp [ML.is_approved, hp]
    · simp [ML.needs_editing, hp]

/-- Witness for C3 at the payload of spec §8 scenario 3 (`"not json"`). -/
theorem C3_fail_open_witness :
    ML.is_approved (ML.Message.executorResponse (ML.Payload.malformed "not json")) = true ∧
    ML.needs_editing (ML.Message.executorResponse (ML.Payload.malformed "not json")) = false :=
  C3_fail_open (ML.Message.executorResponse (ML.Payload.malformed "not json"))
    (by intro p hp; injection hp with h2; subst h2; rfl)

/-- C4: on every possible message exactly one predicate holds:
`is_approved` is the boolean negation of `needs_editing`, so no message
makes both true and none makes both false. -/
theorem C4_exhaustive_exclusive (m : ML.Message) :
    ML.is_approved m = !ML.needs_editing m ∧
    (ML.needs_editing m = true ∨ ML.is_approved m = true) ∧
    ¬(ML.needs_editing m = true ∧ ML.is_approved m = true) := by
  have h := ML.needs_editing_eq_not_approved m
  refine ⟨?_, ?_, ?_⟩
  · rw [h]; cases ML.is_approved m <;> rfl
  · rw [h]; cases ML.is_approved m <;> simp
  · rw [h]; cases ML.is_approved m <;> simp

/-- C5: a verdict scoring exactly 80 is on the approved side of the
threshold: `is_approved` true and `needs_editing` false. -/
theorem C5_boundary_eighty (p : ML.Payload) (r : ML.ReviewResult)
    (hparse : ML.ReviewResult.model_validate_json p = some r)
    (hscore : r.score = 80) :
    ML.is_approved (ML.Message.executorResponse p) = true ∧
    ML.needs_editing (ML.Message.executorResponse p) = false := by
  constructor
  · simp [ML.is_approved, hparse, hscore]
  · simp [ML.needs_editing, hparse, hscore]

/-- Witness for C5 at a concrete verdict with overall score 80. -/
theorem C5_boundary_eighty_witness :
    ML.is_approved (ML.Message.executorResponse (ML.Payload.json (ML.Json.obj
      [("score", ML.Json.int 80), ("feedback", ML.Json.str "ok"),
       ("clarity", ML.Json.int 80), ("completeness", ML.Json.int 80),
       ("accuracy", ML.Json.int 80), ("structure", ML.Json.int 80)]))) = true ∧
    ML.needs_editing (ML.Message.executorResponse (ML.Payload.json (ML.Json.obj
      [("score", ML.Json.int 80), ("feedback", ML.Json.str "ok"),
       ("clarity", ML.Json.int 80), ("completeness", ML.Json.int 80),
       ("accuracy", ML.Json.int 80), ("structure", ML.Json.int 80)]))) = false :=
  C5_boundary_eighty _ ⟨80, "ok", 80, 80, 80, 80⟩ (by decide) (by decide)

/-- C6: the routing conditions are pure, deterministic functions of the
message: the state-passing embeddings return the same boolean as the
pure functions at every world (so two evaluations on the same message
agree), and they return the incoming world unchanged (no side
effects). -/
theorem C6_pure_deterministic (m : ML.Message) (w v : ML.World) :
    (ML.needs_editing_run m w).1 = ML.needs_editing m ∧
    (ML.is_approved_run m w).1 = ML.is_approved m ∧
    (ML.needs_editing_run m w).2 = w ∧
    (ML.is_approved_run m w).2 = w ∧
    (ML.needs_editing_run m w).1 = (ML.needs_editing_run m v).1 ∧
    (ML.is_approved_run m w).1 = (ML.is_approved_run m v).1 := by
  cases m with
  | other => exact ⟨rfl, rfl, rfl, rfl, rfl, rfl⟩
  | executorResponse p =>
    simp only [ML.needs_editing_run, ML.is_approved_run, ML.needs_editing, ML.is_approved]
    cases ML.ReviewResult.model_validate_json p <;>
      exact ⟨rfl, rfl, rfl, rfl, rfl, rfl⟩

/-- C7 counterexample: a verdict payload with overall score 150
deserializes successfully, so parsed verdicts are not confined to
[0, 100]. -/
theorem C7_counterexample :
    ∃ r : ML.ReviewResult,
      ML.ReviewResult.model_validate_json (ML.Payload.json (ML.Json.obj
        [("score", ML.Json.int 150), ("feedback", ML.Json.str "fine"),
         ("clarity", ML.Json.int 90), ("completeness", ML.Json.int 90),
         ("accuracy", ML.Json.int 90), ("structure", ML.Json.int 90)]))
      = some r ∧ ¬(0 ≤ r.score ∧ r.score ≤ 100) :=
  ⟨⟨150, "fine", 90, 90, 90, 90⟩, by decide, by decide⟩

/-- C7 amended: deserialization checks only the presence and type of
the six fields; any integers, including integers outside [0, 100], are
accepted unchanged — there is no bounds validation. -/
theorem C7_no_bounds_validation (s c co a st : Int) (fb : String) :
    ML.ReviewResult.model_validate_json (ML.Payload.json (ML.Json.obj
      [("score", ML.Json.int s), ("feedback", ML.Json.str fb),
       ("clarity", ML.Json.int c), ("completeness", ML.Json.int co),
       ("accuracy", ML.Json.int a), ("structure", ML.Json.int st)]))
    = some ⟨s, fb, c, co, a, st⟩ := rfl

/-- Out of `Writer` only the unconditional edge to `Reviewer` fires. -/
theorem ML.succ_writer (m : ML.Message) :
    ML.enabledSuccessors .Writer m = [.Reviewer] := rfl

/-- Out of `Editor` only the unconditional edge to `Publisher` fires. -/
theorem ML.succ_editor (m : ML.Message) :
    ML.enabledSuccessors .Editor m = [.Publisher] := rfl

/-- Out of `Publisher` only the unconditional edge to `Summarizer`
fires. -/
theorem ML.succ_publisher (m : ML.Message) :
    ML.enabledSuccessors .Publisher m = [.Summarizer] := rfl

/-- `Summarizer` is terminal: no edge fires. -/
theorem ML.succ_summarizer (m : ML.Message) :
    ML.enabledSuccessors .Summarizer m = [] := rfl

/-- Out of `Reviewer` exactly one guarded edge fires: to `Publisher`
when `is_approved`, to `Editor` otherwise. -/
theorem ML.succ_reviewer (m : ML.Message) :
    ML.enabledSuccessors .Reviewer m
      = if ML.is_approved m then [.Publisher] else [.Editor] := by
  have hne := ML.needs_editing_eq_not_approved m
  by_cases ha : ML.is_approved m = true
  · have hn : ML.needs_editing m = false := by rw [hne, ha]; rfl
    simp [ML.enabledSuccessors, ML.workflowEdges, ha, hn]
  · have ha2 : ML.is_approved m = false := by
      cases h : ML.is_approved m
      · rfl
      · exact absurd h ha
    have hn : ML.needs_editing m = true := by rw [hne, ha2]; rfl
    simp [ML.enabledSuccessors, ML.workflowEdges, ha2, hn]

/-- The run visits the four-node direct path or the five-node edited
path according to `is_approved`. -/
theorem ML.runPath_eq (m : ML.Message) :
    ML.runPath m
      = if ML.is_approved m
        then [.Writer, .Reviewer, .Publisher, .Summarizer]
        else [.Writer, .Reviewer, .Editor, .Publisher, .Summarizer] := by
  by_cases ha : ML.is_approved m = true
  · simp [ML.runPath, ML.runFrom, ML.startExecutor, ML.succ_writer,
      ML.succ_reviewer, ML.succ_editor, ML.succ_publisher, ML.succ_summarizer, ha]
  · have ha2 : ML.is_approved m = false := by
      cases h : ML.is_approved m
      · rfl
      · exact absurd h ha
    simp [ML.runPath, ML.runFrom, ML.startExecutor, ML.succ_writer,
      ML.succ_reviewer, ML.succ_editor, ML.succ_publisher, ML.succ_summarizer, ha2]

/-- C8: the declared edges are exactly Writer→Reviewer,
Reviewer→Publisher guarded by `is_approved`, Reviewer→Editor guarded by
`needs_editing`, Editor→Publisher, Publisher→Summarizer, with Writer
the start executor; on every message exactly one edge fires out of
Reviewer; the run takes the direct path or the edited path according to
the routing conditions, visits no node twice, and for a parsed verdict
the choice is decided by the overall score alone. -/
theorem C8_workflow_routing (m : ML.Message) :
    ML.workflowEdges
      = [⟨.Writer, .Reviewer, none⟩,
         ⟨.Reviewer, .Publisher, some ML.is_approved⟩,
         ⟨.Reviewer, .Editor, some ML.needs_editing⟩,
         ⟨.Editor, .Publisher, none⟩,
         ⟨.Publisher, .Summarizer, none⟩] ∧
    ML.startExecutor = .Writer ∧
    (ML.enabledSuccessors .Reviewer m).length = 1 ∧
    ML.runPath m
      = (if ML.is_approved m
         then [.Writer, .Reviewer, .Publisher, .Summarizer]
         else [.Writer, .Reviewer, .Editor, .Publisher, .Summarizer]) ∧
    (ML.runPath m).Nodup ∧
    (∀ p r, m = ML.Message.executorResponse p →
      ML.ReviewResult.model_validate_json p = some r →
      (ML.runPath m = [.Writer, .Reviewer, .Publisher, .Summarizer] ↔ 80 ≤ r.score)) := by
  refine ⟨rfl, rfl, ?_, ML.runPath_eq m, ?_, ?_⟩
  · rw [ML.succ_reviewer m]
    by_cases ha : ML.is_approved m = true
    · simp [ha]
    · have ha2 : ML.is_approved m = false := by
        cases h : ML.is_approved m
        · rfl
        · exact absurd h ha
      simp [ha2]
  · rw [ML.runPath_eq m]
    by_cases ha : ML.is_approved m = true
    · simp [ha]
    · have ha2 : ML.is_approved m = false := by
        cases h : ML.is_approved m
        · rfl
        · exact absurd h ha
      simp [ha2]
  · intro p r hm hparse
    subst hm
    have happ : ML.is_approved (ML.Message.executorResponse p)
        = decide (80 ≤ r.score) := by
      simp [ML.is_approved, hparse, ge_iff_le]
    rw [ML.runPath_eq, happ]
    by_cases hs : 80 ≤ r.score
    · simp [hs]
    · simp [hs]

/-- Witness for C8: the run on the scenario-1 verdict (score 92) takes
the direct path and repeats no node. -/
theorem C8_workflow_routing_witness :
    ML.runPath (ML.Message.executorResponse (ML.Payload.json (ML.Json.obj
      [("score", ML.Json.int 92), ("feedback", ML.Json.str "great"),
       ("clarity", ML.Json.int 90), ("completeness", ML.Json.int 90),
       ("accuracy", ML.Json.int 95), ("structure", ML.Json.int 90)])))
      = [.Writer, .Reviewer, .Publisher, .Summarizer] := by
  obtain ⟨-, -, -, h4, -, -⟩ := C8_workflow_routing
    (ML.Message.executorResponse (ML.Payload.json (ML.Json.obj
      [("score", ML.Json.int 92), ("feedback", ML.Json.str "great"),
       ("clarity", ML.Json.int 90), ("completeness", ML.Json.int 90),
       ("accuracy", ML.Json.int 95), ("structure", ML.Json.int 90)])))
  rw [h4]
  rfl

/-- Decoding integer coordinates inverts encoding. -/
theorem ML.asInt_mapOption_int (xs : List Int) :
    ML.mapOption ML.Json.asInt (xs.map ML.Json.int) = some xs := by
  induction xs with
  | nil => rfl
  | cons x rest ih => simp [ML.mapOption, ih, ML.Json.asInt]

/-- Decoding one chunk object inverts encoding. -/
theorem ML.ofJson_toJson (c : ML.Chunk) :
    ML.Chunk.ofJson c.toJson = some c := by
  simp [ML.Chunk.toJson, ML.Chunk.ofJson, ML.asInt_mapOption_int]

/-- Decoding the whole array inverts encoding. -/
theorem ML.parseChunks_dumpChunks (cs : List ML.Chunk) :
    ML.parseChunks (ML.dumpChunks cs) = some cs := by
  simp only [ML.dumpChunks, ML.parseChunks]
  induction cs with
  | nil => rfl
  | cons c rest ih => simp [ML.mapOption, ML.ofJson_toJson, ih]

/-- C9: for every splitter output and embedding function, the value the
ingestion script writes is a single JSON array whose every element is
an object with exactly the keys id, text, embedding, and reading the
array back recovers every chunk with those fields intact. -/
theorem C9_ingestion_output (files : List (String × List String))
    (embed : String → List Int) :
    (∃ elems, ML.dumpChunks (ML.all_chunks files embed) = ML.Json.arr elems ∧
      ∀ e ∈ elems, ML.Json.keys e = ["id", "text", "embedding"]) ∧
    ML.parseChunks (ML.dumpChunks (ML.all_chunks files embed))
      = some (ML.all_chunks files embed) := by
  constructor
  · refine ⟨(ML.all_chunks files embed).map ML.Chunk.toJson, rfl, ?_⟩
    intro e he
    obtain ⟨c, -, hc⟩ := List.mem_map.mp he
    rw [← hc]
    rfl
  · exact ML.parseChunks_dumpChunks (ML.all_chunks files embed)

/-- Appending under the fold that builds `bot_response`. -/
theorem ML.bot_response_foldl (events : List ML.StreamEvent) :
    ∀ acc : String,
      events.foldl (fun a e =>
        match ML.eventContent e with
        | some content => a ++ content
        | none => a) acc
      = acc ++ String.join (events.filterMap ML.eventContent) := by
  induction events with
  | nil =>
    intro acc
    simp [String.join]
  | cons e rest ih =>
    intro acc
    cases h : ML.eventContent e with
    | none => simp [List.foldl_cons, h, ih acc]
    | some content =>
      simp only [List.foldl_cons, h]
      rw [ih (acc ++ content)]
      apply String.ext
      simp [List.filterMap_cons, h]

/-- The loop only ever appends: the history after any interaction is
the starting history extended by two messages per iteration. -/
theorem ML.chatLoop_shape (inputs : List (String × List ML.StreamEvent)) :
    ∀ msgs : List ML.ChatMsg,
      ∃ rest, inputs.foldl (fun ms qe => ML.chatIteration ms qe.1 qe.2) msgs
          = msgs ++ rest ∧ rest.length = 2 * inputs.length := by
  induction inputs with
  | nil =>
    intro msgs
    exact ⟨[], by simp, by simp⟩
  | cons qe tl ih =>
    intro msgs
    obtain ⟨r, hr, hlen⟩ := ih (ML.chatIteration msgs qe.1 qe.2)
    refine ⟨[{ role := "user", content := qe.1 },
             { role := "assistant", content := ML.bot_response qe.2 }] ++ r, ?_, ?_⟩
    · simp only [List.foldl_cons]
      rw [hr]
      simp [ML.chatIteration]
    · simp [hlen]
      ring

/-- C10: one loop iteration appends exactly the user message and then
the assistant message to the unchanged earlier history; the assistant
content is the concatenation of the streamed deltas in arrival order;
over any finite interaction the history starts with the system message
and holds exactly one message plus two per iteration. -/
theorem C10_chat_history (msgs : List ML.ChatMsg) (q : String)
    (events : List ML.StreamEvent)
    (inputs : List (String × List ML.StreamEvent)) :
    ML.chatIteration msgs q events
      = msgs ++ [{ role := "user", content := q },
                 { role := "assistant", content := ML.bot_response events }] ∧
    ML.bot_response events = String.join (events.filterMap ML.eventContent) ∧
    (ML.chatLoop inputs).head?
      = some { role := "system", content := "I am a large language model." } ∧
    (ML.chatLoop inputs).length = 1 + 2 * inputs.length := by
  refine ⟨by simp [ML.chatIteration], ?_, ?_, ?_⟩
  · have h := ML.bot_response_foldl events ""
    simpa [ML.bot_response] using h
  · obtain ⟨rest, hr, -⟩ := ML.chatLoop_shape inputs ML.initialMessages
    simp only [ML.chatLoop]
    rw [hr]
    rfl
  · obtain ⟨rest, hr, hlen⟩ := ML.chatLoop_shape inputs ML.initialMessages
    simp only [ML.chatLoop]
    rw [hr]
    simp [ML.initialMessages, hlen]
    omega
